import Mathlib

/-!
# Verification of the Daily-Progress-Tracker activity pipeline

Shallow embedding of `src/Dashboard.py` (a GitLab daily-progress dashboard).
The remote GitLab API is modelled as an environment of pure response
functions; HTTP responses carry an `ok` flag, a status code and the fields
of their JSON body that the code reads.  Python exceptions (`KeyError` from
`event['push_data']`, `ValueError` from `datetime.strptime`) are modelled
with `Except PyError`.

Timestamps: `datetime.strptime(s, "%Y-%m-%dT%H:%M:%S.%fZ")` is modelled by
`parseCreatedAt`, which validates the fixed-width form of that format
(4-digit year, 2-digit month/day/hour/minute/second, 1-6 fraction digits,
trailing `Z`) with the same range checks the `datetime` constructor makes,
and returns the instant as whole minutes since the proleptic-Gregorian
epoch.  Seconds and microseconds are dropped: the program only ever uses
`event_time.date()` and `event_time.strftime("%I:%M %p")` after adding a
whole-minute offset, and both depend only on the minute count (for integer
minute count M and sub-minute remainder 0 ≤ s < 1 min, ⌊(M+s)/1440⌋ =
⌊M/1440⌋, so the calendar date and the hour:minute display are unaffected).
-/

namespace Dashboard

/-- Python exceptions the pipeline can raise: `KeyError` from
`event['push_data']`, `ValueError` from `datetime.strptime`, and a raised
transport exception (`requests.exceptions.ConnectionError` / `Timeout`)
from a `requests.get` call. -/
inductive PyError where
  | keyError
  | valueError
  | requestError
  deriving Repr, DecidableEq

/-! ## Gregorian calendar arithmetic (model of `datetime`) -/

/-- Leap year in the proleptic Gregorian calendar. -/
def isLeap (y : Nat) : Bool :=
  (y % 4 == 0 && y % 100 != 0) || y % 400 == 0

/-- Number of days in month `m` of year `y` (months are 1-based). -/
def daysInMonth (y m : Nat) : Nat :=
  if m == 2 then (if isLeap y then 29 else 28)
  else if m == 4 || m == 6 || m == 9 || m == 11 then 30
  else 31

/-- Days in all years before year `y` (year 1 is the first valid year,
as in Python's `datetime.toordinal`). -/
def daysBeforeYear (y : Nat) : Nat :=
  365 * (y - 1) + (y - 1) / 4 - (y - 1) / 100 + (y - 1) / 400

/-- Days in the months of year `y` strictly before month `m`. -/
def daysBeforeMonth (y m : Nat) : Nat :=
  (List.range (m - 1)).foldl (fun acc i => acc + daysInMonth y (i + 1)) 0

/-- Day number of a calendar date (days since the epoch of year 1). -/
def dayOrdinal (y m d : Nat) : Nat :=
  daysBeforeYear y + daysBeforeMonth y m + (d - 1)

/-! ## `strptime` model -/

/-- Read exactly `n` decimal digits from the front of a character list,
returning their value and the rest. -/
def readDigits : Nat → List Char → Option (Nat × List Char)
  | 0, cs => some (0, cs)
  | n + 1, c :: cs =>
      if c.isDigit then
        match readDigits n cs with
        | some (v, rest) => some ((c.toNat - 48) * 10 ^ n + v, rest)
        | none => none
      else none
  | _ + 1, [] => none

/-- Read between 1 and `n` decimal digits (the `%f` fraction field);
the value itself is discarded by the model, only well-formedness matters. -/
def readFrac : Nat → List Char → Option (List Char)
  | _, [] => none
  | n + 1, c :: cs =>
      if c.isDigit then
        match cs with
        | c' :: _ => if c'.isDigit && n > 0 then readFrac n cs else some cs
        | [] => some []
      else none
  | 0, _ :: _ => none

/-- Expect a literal character at the front of the list. -/
def expectChar (c : Char) : List Char → Option (List Char)
  | c' :: cs => if c' == c then some cs else none
  | [] => none

/-- Model of `datetime.strptime(s, "%Y-%m-%dT%H:%M:%S.%fZ")`:
`none` means `ValueError`.  On success the instant is returned as whole
minutes since the epoch of year 1 (seconds and microseconds dropped; see
the header comment for why this is sound for this program). -/
def parseCreatedAt (s : String) : Option Nat := do
  let cs := s.data
  let (y, cs) ← readDigits 4 cs
  let cs ← expectChar '-' cs
  let (mo, cs) ← readDigits 2 cs
  let cs ← expectChar '-' cs
  let (d, cs) ← readDigits 2 cs
  let cs ← expectChar 'T' cs
  let (h, cs) ← readDigits 2 cs
  let cs ← expectChar ':' cs
  let (mi, cs) ← readDigits 2 cs
  let cs ← expectChar ':' cs
  let (sec, cs) ← readDigits 2 cs
  let cs ← expectChar '.' cs
  let cs ← readFrac 6 cs
  let cs ← expectChar 'Z' cs
  match cs with
  | _ :: _ => none
  | [] =>
    if 1 ≤ y && 1 ≤ mo && mo ≤ 12 && 1 ≤ d && d ≤ daysInMonth y mo
        && h ≤ 23 && mi ≤ 59 && sec ≤ 59 then
      some ((dayOrdinal y mo d * 24 + h) * 60 + mi)
    else none

/-! ## `strftime("%I:%M %p")` model -/

/-- Zero-padded two-digit decimal rendering. -/
def fmt2 (n : Nat) : String :=
  if n < 10 then "0" ++ toString n else toString n

/-- Model of `event_time.strftime("%I:%M %p")` on an instant given as
minutes since the epoch. -/
def strftimeIMp (totalMin : Nat) : String :=
  let h := totalMin / 60 % 24
  let m := totalMin % 60
  let h12 := if h % 12 == 0 then 12 else h % 12
  fmt2 h12 ++ ":" ++ fmt2 m ++ " " ++ (if h < 12 then "AM" else "PM")

/-! ## Event data model (fields of the JSON records the code reads) -/

/-- The `push_data` object of a GitLab event: the code only reads
`push_data.get('ref')`, which is `None` when the key is absent. -/
structure PushData where
  ref : Option String
  deriving Repr, DecidableEq

/-- A raw GitLab event, with the fields `fetch_user_events` reads.
`push_data = none` models the `'push_data'` key being absent from the
event dict (so that `event['push_data']` raises `KeyError`). -/
structure RawEvent where
  action_name : String
  project_id : Nat
  created_at : String
  push_data : Option PushData
  deriving Repr, DecidableEq

/-- A filtered push event, the dict built at lines 40-44 of the source:
`{"project": ..., "branch": event['push_data'].get('ref'), "time": ...}`.
`branch` is `Option String` because `.get('ref')` yields `None` when the
key is absent. -/
structure PushEntry where
  project : Nat
  branch : Option String
  time : String
  deriving Repr, DecidableEq

/-! ## The event loop of `fetch_user_events` (lines 36-46) -/

/-- IST offset used by the source: `timedelta(hours=5, minutes=30)`. -/
def istOffsetMin : Nat := 330

/-- The event-filtering loop of `fetch_user_events`, with the target local
date (`today_ist`, a day ordinal) and the timezone offset in minutes made
explicit parameters.  Mirrors the source line by line: classification test
on `action_name`, `strptime` (raising `ValueError` on failure), date
comparison after adding the offset, then `event['push_data']` (raising
`KeyError` when absent) and `.get('ref')`. -/
def filterPushes (events : List RawEvent) (todayLocal : Nat) (offsetMin : Nat) :
    Except PyError (List PushEntry) :=
  match events with
  | [] => .ok []
  | e :: rest =>
    if e.action_name == "pushed to" then
      match parseCreatedAt e.created_at with
      | none => .error .valueError
      | some t =>
        let eventTime := t + offsetMin
        if eventTime / 1440 == todayLocal then
          match e.push_data with
          | none => .error .keyError
          | some pd =>
            match filterPushes rest todayLocal offsetMin with
            | .error err => .error err
            | .ok out =>
                .ok ({ project := e.project_id, branch := pd.ref,
                       time := strftimeIMp eventTime } :: out)
        else filterPushes rest todayLocal offsetMin
    else filterPushes rest todayLocal offsetMin

/-- An event passes the filter (action is exactly `"pushed to"` and the
offset-converted timestamp falls on the target local date). -/
def qualifies (todayLocal offsetMin : Nat) (e : RawEvent) : Bool :=
  e.action_name == "pushed to" &&
    (match parseCreatedAt e.created_at with
     | some t => (t + offsetMin) / 1440 == todayLocal
     | none => false)

/-- The push entry built for a qualifying event (with defaults that never
fire on a run where `filterPushes` succeeded). -/
def pushEntryOf (offsetMin : Nat) (e : RawEvent) : PushEntry :=
  { project := e.project_id
    branch := ((e.push_data).getD { ref := none }).ref
    time := strftimeIMp ((parseCreatedAt e.created_at).getD 0 + offsetMin) }

/-! ## The remote API environment

Each `requests.get` call the code makes is modelled by a pure response
function; responses carry the `ok` flag, the status code, and the fields of
the JSON body that the code reads. -/

/-- Response to `GET /users?username=...`: the `ok` flag and the body, a
JSON list of user objects of which the code only reads `[0]['id']`.  An
empty list is falsy in Python, which is what `not resp.json()` tests. -/
structure UsersResponse where
  ok : Bool
  body : List Nat
  deriving Repr, DecidableEq

/-- Response to `GET /users/{id}/events`: the `ok` flag and the JSON list
of events. -/
structure EventsResponse where
  ok : Bool
  body : List RawEvent
  deriving Repr, DecidableEq

/-- Response to `GET /projects/{id}`: `ok` flag, status code, and the
optional `"name"` field of the JSON body (`none` models a body with no
`"name"` key, so that `.get("name", "Unknown")` falls back). -/
structure ProjectResponse where
  ok : Bool
  status : Nat
  name : Option String
  deriving Repr, DecidableEq

/-- The remote service restricted to runs in which every `requests.get`
call returns a response (possibly a non-2xx one): one total response
function per endpoint the code calls.  A `requests.get` can also raise a
transport exception instead of returning; that path is modelled
separately by `TEnv` below and is load-bearing for the error-handling
analysis of the batch loop. -/
structure Env where
  usersResp : String → UsersResponse
  eventsResp : Nat → EventsResponse
  projectResp : Nat → ProjectResponse

/-! ## `fetch_user_events` (lines 20-46) -/

/-- Result of `fetch_user_events`: the `(user_id, push_events)` pair, or a
Python exception from the event loop.  Alongside, the trace of user ids
for which `GET /users/{id}/events` was issued, so that "no event fetch was
attempted" is a statement about the model, not about its absence. -/
def fetch_user_events (env : Env) (todayIst : Nat) (username : String) :
    Except PyError (Option Nat × List PushEntry) × List Nat :=
  let resp := env.usersResp username
  if !resp.ok || resp.body.isEmpty then
    (.ok (none, []), [])
  else
    match resp.body with
    | [] => (.ok (none, []), [])
    | user_id :: _ =>
      let events_resp := env.eventsResp user_id
      if !events_resp.ok then
        (.ok (some user_id, []), [user_id])
      else
        match filterPushes events_resp.body todayIst istOffsetMin with
        | .error err => (.error err, [user_id])
        | .ok push_events => (.ok (some user_id, push_events), [user_id])

/-! ## `resolve_project_name` (lines 49-58) -/

/-- Model of `resolve_project_name`, line for line: success reads the optional
`"name"` field with fallback `"Unknown"`; 404 and 403 map to their named
fallback strings; anything else is `"Unknown"`.  Always a plain string,
never an exception. -/
def resolve_project_name (env : Env) (project_id : Nat) : String :=
  let project_resp := env.projectResp project_id
  if project_resp.ok then
    (project_resp.name).getD "Unknown"
  else if project_resp.status == 404 then
    "Project not found or private"
  else if project_resp.status == 403 then
    "Access denied"
  else
    "Unknown"

/-- Same call with its remote-lookup trace: each invocation of
`resolve_project_name` performs exactly one `requests.get` on the project
endpoint (line 51); there is no memoisation in the source. -/
def resolveWithTrace (env : Env) (project_id : Nat) : String × List Nat :=
  (resolve_project_name env project_id, [project_id])

/-! ## The tab1 batch loop (lines 93-107) -/

/-- Python's `str()` of a value that is either a string or `None`, as
interpolated by the f-string at line 98. -/
def pyStr : Option String → String
  | some s => s
  | none => "None"

/-- The activity line built at line 98:
`f"Pushed to '{event['branch']}' in '{project_name}' at {event['time']}"`. -/
def activityLine (branch : Option String) (project_name time : String) : String :=
  "Pushed to \x27" ++ pyStr branch ++ "\x27 in \x27" ++ project_name
    ++ "\x27 at " ++ time

/-- The inner loop of tab1 (lines 95-98): builds `activity_log` by
appending one formatted line per event, resolving each event's project by
a fresh remote call; also returns the trace of project lookups made. -/
def buildActivityLog (env : Env) (events : List PushEntry) :
    List String × List Nat :=
  events.foldl
    (fun acc event =>
      let (project_name, trace) := resolveWithTrace env event.project
      (acc.1 ++ [activityLine event.branch project_name event.time],
       acc.2 ++ trace))
    ([], [])

/-- A row of the tab1 result table (lines 100-104). -/
structure Row where
  username : String
  push_events : Nat
  activity : String
  deriving Repr, DecidableEq

/-- The row appended for one username (lines 94-104): fetch, build the
activity log, then record the username, the number of push events, and the
newline-joined log (or the sentinel when the log is empty). -/
def userRow (env : Env) (todayIst : Nat) (username : String) :
    Except PyError Row :=
  match (fetch_user_events env todayIst username).1 with
  | .error err => .error err
  | .ok (_, events) =>
    let activity_log := (buildActivityLog env events).1
    .ok { username := username
          push_events := events.length
          activity :=
            if activity_log.isEmpty then "No push events today."
            else String.intercalate "\n" activity_log }

/-- The tab1 batch loop (lines 93-104): one iteration per username of the
uploaded CSV, accumulating `results`; an uncaught exception while
processing any user aborts the whole batch (Python propagates it out of
the `for` loop). -/
def processBatch (env : Env) (todayIst : Nat) (usernames : List String) :
    Except PyError (List Row) :=
  match usernames with
  | [] => .ok []
  | u :: rest =>
    match userRow env todayIst u with
    | .error err => .error err
    | .ok row =>
      match processBatch env todayIst rest with
      | .error err => .error err
      | .ok rows => .ok (row :: rows)

/-! ## The transport layer made explicit

`requests.get` does not always return: a transport-level failure
(connection refused, DNS, timeout) raises `ConnectionError`/`Timeout`
instead of producing a response object, and `Dashboard.py` has no
`try/except` anywhere, so such an exception propagates.  `TEnv` models
each endpoint call as either a returned response or a raised transport
exception, and the `..._t` functions re-trace the same source lines over
it (they coincide with the `Env` versions on environments whose calls all
return). -/

/-- The remote service with the transport layer explicit: each
`requests.get` either returns a response or raises. -/
structure TEnv where
  usersResp : String → Except PyError UsersResponse
  eventsResp : Nat → Except PyError EventsResponse
  projectResp : Nat → Except PyError ProjectResponse

/-- `fetch_user_events` (lines 20-46) over the transport-aware service:
a raised exception at either `requests.get` (line 22 or 28) propagates —
only a returned non-ok response degrades to `(None, [])` or
`(user_id, [])`.  The second component is still the trace of user ids for
which the event endpoint was called (a call that raises was attempted). -/
def fetch_user_events_t (env : TEnv) (todayIst : Nat) (username : String) :
    Except PyError (Option Nat × List PushEntry) × List Nat :=
  match env.usersResp username with
  | .error err => (.error err, [])
  | .ok resp =>
    if !resp.ok || resp.body.isEmpty then
      (.ok (none, []), [])
    else
      match resp.body with
      | [] => (.ok (none, []), [])
      | user_id :: _ =>
        match env.eventsResp user_id with
        | .error err => (.error err, [user_id])
        | .ok events_resp =>
          if !events_resp.ok then
            (.ok (some user_id, []), [user_id])
          else
            match filterPushes events_resp.body todayIst istOffsetMin with
            | .error err => (.error err, [user_id])
            | .ok push_events => (.ok (some user_id, push_events), [user_id])

/-- `resolve_project_name` (lines 49-58) over the transport-aware
service: a raised exception at the `requests.get` of line 51
propagates. -/
def resolve_project_name_t (env : TEnv) (project_id : Nat) :
    Except PyError String :=
  match env.projectResp project_id with
  | .error err => .error err
  | .ok project_resp =>
    .ok (if project_resp.ok then
           (project_resp.name).getD "Unknown"
         else if project_resp.status == 404 then
           "Project not found or private"
         else if project_resp.status == 403 then
           "Access denied"
         else
           "Unknown")

/-- The tab1 activity-log loop (lines 95-98) over the transport-aware
service: the first project lookup that raises aborts the loop. -/
def buildActivityLog_t (env : TEnv) (events : List PushEntry) :
    Except PyError (List String) :=
  match events with
  | [] => .ok []
  | event :: rest =>
    match resolve_project_name_t env event.project with
    | .error err => .error err
    | .ok project_name =>
      match buildActivityLog_t env rest with
      | .error err => .error err
      | .ok lines =>
          .ok (activityLine event.branch project_name event.time :: lines)

/-- One tab1 row (lines 94-104) over the transport-aware service. -/
def userRow_t (env : TEnv) (todayIst : Nat) (username : String) :
    Except PyError Row :=
  match (fetch_user_events_t env todayIst username).1 with
  | .error err => .error err
  | .ok (_, events) =>
    match buildActivityLog_t env events with
    | .error err => .error err
    | .ok activity_log =>
      .ok { username := username
            push_events := events.length
            activity :=
              if activity_log.isEmpty then "No push events today."
              else String.intercalate "\n" activity_log }

/-- The tab1 batch loop (lines 93-104) over the transport-aware service:
any uncaught exception while processing one user propagates out of the
`for` loop and aborts the whole batch. -/
def processBatch_t (env : TEnv) (todayIst : Nat) (usernames : List String) :
    Except PyError (List Row) :=
  match usernames with
  | [] => .ok []
  | u :: rest =>
    match userRow_t env todayIst u with
    | .error err => .error err
    | .ok row =>
      match processBatch_t env todayIst rest with
      | .error err => .error err
      | .ok rows => .ok (row :: rows)

/-! ## The tab2 activity summary (lines 123-136) -/

/-- A row of tab2's `activity_data` (lines 126-130):
`{"Project": project_name, "Branch": event['branch'], "Time": event['time']}`. -/
structure ActivityRow where
  project : String
  branch : Option String
  time : String
  deriving Repr, DecidableEq

/-- The tab2 `activity_data` loop (lines 123-131): appends one row per
filtered push event, in event order, resolving each event's project by a
fresh remote call.  No sorting happens here; the dataframe built from this
list (line 133) is displayed as is. -/
def activityData (env : Env) (events : List PushEntry) : List ActivityRow :=
  events.foldl
    (fun acc event =>
      acc ++ [{ project := resolve_project_name env event.project
                branch := event.branch
                time := event.time }])
    []

/-! ## Pandas operations used by the Key Insights block (lines 149-152) -/

/-- Number of distinct values of a column: model of
`Series.nunique()` (the values here are plain strings, never NaN). -/
def nunique (xs : List String) : Nat := xs.dedup.length

/-- The `df['Project'].nunique()` call at line 151. -/
def nuniqueProjects (rows : List ActivityRow) : Nat :=
  nunique (rows.map (fun r => r.project))

/-- The highest frequency of any value in the column. -/
def maxCount (xs : List String) : Nat :=
  (xs.map (fun v => xs.count v)).foldr max 0

/-- Lexicographic code-point comparison of character lists (the order
Python string comparison and the numpy sort behind `mode()` use). -/
def charsLe : List Char → List Char → Bool
  | [], _ => true
  | _ :: _, [] => false
  | a :: as, b :: bs =>
      if a.toNat < b.toNat then true
      else if b.toNat < a.toNat then false
      else charsLe as bs

/-- Lexicographic code-point comparison of strings. -/
def strLe (a b : String) : Bool := charsLe a.data b.data

/-- Insert a string into a (sorted) list, keeping the order. -/
def insertSorted (a : String) : List String → List String
  | [] => [a]
  | b :: t => if strLe a b then a :: b :: t else b :: insertSorted a t

/-- Insertion sort by lexicographic code-point order (model of the sort
numpy applies to the tied mode values). -/
def sortStrings : List String → List String
  | [] => []
  | a :: t => insertSorted a (sortStrings t)

/-- Model of `Series.mode()`: the distinct values attaining the highest
frequency, sorted ascending (pandas returns the multimodal values in
sorted order). -/
def modeList (xs : List String) : List String :=
  sortStrings (xs.dedup.filter (fun v => xs.count v == maxCount xs))

/-- Model of `Series.mode()[0]`: the first element of the sorted mode values. -/
def modeHead (xs : List String) : Option String := (modeList xs).head?

/-- The `df['Project'].mode()[0]` call at line 152. -/
def mostActiveProject (rows : List ActivityRow) : Option String :=
  modeHead (rows.map (fun r => r.project))

/-- Spec-side reading of a `"%I:%M %p"` display string back to minutes
after midnight, used to state "ascending by local_time" over the displayed
rows (matches the ordering `pd.to_datetime(..., format='%I:%M %p')` gives
the timeline copy at lines 143-145). -/
def timeVal12 (s : String) : Nat :=
  match s.data with
  | [h1, h2, _, m1, m2, _, p, _] =>
      let h := (h1.toNat - 48) * 10 + (h2.toNat - 48)
      let m := (m1.toNat - 48) * 10 + (m2.toNat - 48)
      let h24 := if p == 'A' then (if h == 12 then 0 else h)
                 else (if h == 12 then 12 else h + 12)
      h24 * 60 + m
  | _ => 0

/-- The displayed rows are in ascending local-time order. -/
def sortedByLocalTime : List ActivityRow → Bool
  | [] => true
  | [_] => true
  | a :: b :: rest =>
      if timeVal12 a.time ≤ timeVal12 b.time then
        sortedByLocalTime (b :: rest)
      else false

/-! ## Spec-side definitions (for refinement comparisons only)

These follow the specification's words, not the source, and are named
`spec...` / `ProjectName` accordingly. -/

/-- The spec's resolution taxonomy: `Resolved(name) | NotFound |
AccessDenied | Unknown`. -/
inductive ProjectName where
  | Resolved (name : String)
  | NotFound
  | AccessDenied
  | Unknown
  deriving Repr, DecidableEq

/-- Classification of a project lookup into the spec's taxonomy, following
the same branch structure as `resolve_project_name` (success with a
missing `"name"` field lands in `Unknown`, as the code's fallback does). -/
def classifyResolution (env : Env) (project_id : Nat) : ProjectName :=
  let r := env.projectResp project_id
  if r.ok then
    match r.name with
    | some n => .Resolved n
    | none => .Unknown
  else if r.status == 404 then .NotFound
  else if r.status == 403 then .AccessDenied
  else .Unknown

/-- The display string of each taxonomy variant, as produced by
`resolve_project_name`. -/
def labelOf : ProjectName → String
  | .Resolved n => n
  | .NotFound => "Project not found or private"
  | .AccessDenied => "Access denied"
  | .Unknown => "Unknown"

/-- The name of a `Resolved` variant, `none` for the failure buckets. -/
def resolvedName : ProjectName → Option String
  | .Resolved n => some n
  | _ => none

/-- The fallback display string of an unresolved bucket, `none` for
`Resolved`. -/
def fallbackLabel : ProjectName → Option String
  | .Resolved _ => none
  | .NotFound => some "Project not found or private"
  | .AccessDenied => some "Access denied"
  | .Unknown => some "Unknown"

/-- Modelled from the spec: `unique_project_count` as "the count of
distinct `Resolved` names only (unresolved buckets do not count)". -/
def specUniqueResolvedCount (env : Env) (events : List PushEntry) : Nat :=
  (((events.map (fun e => classifyResolution env e.project)).filterMap
      resolvedName).dedup).length

/-- Modelled from the spec: most-active-project selection where "ties are
broken by first occurrence in the entry sequence (earliest push wins)" —
the first value of the sequence whose frequency is maximal. -/
def specMostActive (xs : List String) : Option String :=
  (xs.filter (fun v => xs.count v == maxCount xs)).head?

/-! ## Concrete fixtures (used by witnesses and counterexamples)

Timestamps use year 1 so that the day ordinals stay tiny: `0001-01-01`
is day 0, and `10:00` UTC + 5:30 = `15:30` IST, still day 0. -/

/-- A push event on the target date with a branch ref. -/
def evPush : RawEvent :=
  ⟨"pushed to", 5, "0001-01-01T10:00:00.0Z", some ⟨some "main"⟩⟩

/-- A second push on the target date, half an hour earlier. -/
def evPushEarlier : RawEvent :=
  ⟨"pushed to", 5, "0001-01-01T09:30:00.0Z", some ⟨some "main"⟩⟩

/-- A non-push event on the target date. -/
def evComment : RawEvent :=
  ⟨"commented on", 5, "0001-01-01T11:00:00.0Z", none⟩

/-- A push event on the following day. -/
def evNextDay : RawEvent :=
  ⟨"pushed to", 6, "0001-01-02T10:00:00.0Z", some ⟨some "dev"⟩⟩

/-- A push event whose `push_data` has no `ref` key. -/
def evNoRef : RawEvent :=
  ⟨"pushed to", 5, "0001-01-01T10:00:00.0Z", some ⟨none⟩⟩

/-- A push event with no `push_data` key at all. -/
def evNoPayload : RawEvent :=
  ⟨"pushed to", 5, "0001-01-01T10:00:00.0Z", none⟩

/-- A push event with an unparseable timestamp. -/
def evMalformed : RawEvent :=
  ⟨"pushed to", 5, "not-a-date", some ⟨some "main"⟩⟩

/-- The push entry `evPush` filters to. -/
def peMain : PushEntry := ⟨5, some "main", "03:30 PM"⟩

/-- The push entry `evPushEarlier` filters to. -/
def peEarlier : PushEntry := ⟨5, some "main", "03:00 PM"⟩

/-- A fixture environment: user `"ghost"` is unknown, every other username
resolves to id 7; id 7's events are `evPush` then `evPushEarlier` (the API
order is reverse-chronological); project 5 resolves to `"Alpha"`, project
1 to `"A"`, project 3 to `"B"`, project 2 is a 404, and everything else
errors with a 500. -/
def envFix : Env :=
  ⟨fun u => if u == "ghost" then ⟨false, []⟩ else ⟨true, [7]⟩,
   fun _ => ⟨true, [evPush, evPushEarlier]⟩,
   fun p =>
     if p == 5 then ⟨true, 200, some "Alpha"⟩
     else if p == 1 then ⟨true, 200, some "A"⟩
     else if p == 3 then ⟨true, 200, some "B"⟩
     else if p == 2 then ⟨false, 404, none⟩
     else ⟨false, 500, none⟩⟩

/-- A fixture environment where the (only) user's event stream starts with
a malformed event. -/
def envMalformed : Env :=
  ⟨fun _ => ⟨true, [7]⟩, fun _ => ⟨true, [evMalformed, evPush]⟩,
   fun _ => ⟨true, 200, some "Alpha"⟩⟩

/-- A fixture environment where `"ghost"` fails the account lookup and
every event retrieval fails at server level. -/
def envOutage : Env :=
  ⟨fun u => if u == "ghost" then ⟨false, []⟩ else ⟨true, [7]⟩,
   fun _ => ⟨false, []⟩, fun _ => ⟨false, 500, none⟩⟩

/-- A fixture environment where project 4's lookup succeeds but its body
has no `"name"` field, and every other project lookup fails with 500. -/
def envNameless : Env :=
  ⟨fun _ => ⟨true, [7]⟩, fun _ => ⟨true, []⟩,
   fun p => if p == 4 then ⟨true, 200, none⟩ else ⟨false, 500, none⟩⟩

/-- Push entries over projects 1 (`"A"`), 1 again, 2 (a 404) and
3 (`"B"`) — the spec's own `nunique` example shape. -/
def mixedEntries : List PushEntry :=
  [⟨1, none, "a"⟩, ⟨1, none, "b"⟩, ⟨2, none, "c"⟩, ⟨3, none, "d"⟩]

/-- A transport-aware fixture: `"ghost"` gets a not-ok lookup response,
`"down"` raises at the account lookup, `"bob"` resolves to id 9 whose
event retrieval returns not-ok, `"carol"` resolves to id 8 whose event
retrieval raises, and every other username resolves to id 7 with one
normal push event on project 5 (`"Alpha"`). -/
def envMixedT : TEnv :=
  ⟨fun u =>
     if u == "ghost" then .ok ⟨false, []⟩
     else if u == "down" then .error .requestError
     else if u == "bob" then .ok ⟨true, [9]⟩
     else if u == "carol" then .ok ⟨true, [8]⟩
     else .ok ⟨true, [7]⟩,
   fun uid =>
     if uid == 7 then .ok ⟨true, [evPush]⟩
     else if uid == 9 then .ok ⟨false, []⟩
     else .error .requestError,
   fun p =>
     if p == 5 then .ok ⟨true, 200, some "Alpha"⟩
     else .ok ⟨false, 500, none⟩⟩

/-- The row the tab1 batch over `envMixedT` produces for `"alice"`. -/
def rowAliceT : Row :=
  ⟨"alice", 1, "Pushed to \x27main\x27 in \x27Alpha\x27 at 03:30 PM"⟩

/-- The row the tab1 batch over `envFix` produces for `"alice"`. -/
def rowAlice : Row :=
  ⟨"alice", 2,
   "Pushed to \x27main\x27 in \x27Alpha\x27 at 03:30 PM\nPushed to \x27main\x27 in \x27Alpha\x27 at 03:00 PM"⟩

/-- The row the tab1 batch over `envFix` produces for `"ghost"`. -/
def rowGhost : Row := ⟨"ghost", 0, "No push events today."⟩

/-! ## Helper lemmas -/

/-- When `filterPushes` returns normally, it returns exactly the
qualifying events, mapped to their push entries, in source order. -/
theorem filterPushes_eq_filter_map (events : List RawEvent)
    (d off : Nat) (out : List PushEntry)
    (h : filterPushes events d off = .ok out) :
    out = (events.filter (qualifies d off)).map (pushEntryOf off) := by
  induction events generalizing out with
  | nil =>
      simp only [filterPushes] at h
      cases h
      simp
  | cons e rest ih =>
      simp only [filterPushes] at h
      by_cases ha : (e.action_name == "pushed to") = true
      · rw [if_pos ha] at h
        cases hp : parseCreatedAt e.created_at with
        | none => simp only [hp] at h; exact Except.noConfusion h
        | some t =>
            simp only [hp] at h
            by_cases hd : ((t + off) / 1440 == d) = true
            · rw [if_pos hd] at h
              cases hpd : e.push_data with
              | none => simp only [hpd] at h; exact Except.noConfusion h
              | some pd =>
                  simp only [hpd] at h
                  cases hrest : filterPushes rest d off with
                  | error err =>
                      simp only [hrest] at h
                      exact Except.noConfusion h
                  | ok out2 =>
                      simp only [hrest, Except.ok.injEq] at h
                      subst h
                      have hq : qualifies d off e = true := by
                        simp [qualifies, ha, hp, hd]
                      rw [List.filter_cons_of_pos hq, List.map_cons,
                        ← ih out2 hrest]
                      simp [pushEntryOf, hpd, hp]
            · rw [if_neg hd] at h
              have hq : qualifies d off e = false := by
                simp only [Bool.not_eq_true] at hd
                simp [qualifies, hp, hd]
              rw [List.filter_cons_of_neg (by simp [hq])]
              exact ih out h
      · rw [if_neg ha] at h
        have hq : qualifies d off e = false := by
          simp only [Bool.not_eq_true] at ha
          simp [qualifies, ha]
        rw [List.filter_cons_of_neg (by simp [hq])]
        exact ih out h

/-- The tab1 activity loop produces one formatted line per event and one
remote project lookup per event, both in event order. -/
theorem buildActivityLog_eq (env : Env) (events : List PushEntry) :
    buildActivityLog env events =
      (events.map (fun e =>
         activityLine e.branch (resolve_project_name env e.project) e.time),
       events.map (fun e => e.project)) := by
  have aux : ∀ (l : List PushEntry) (acc : List String × List Nat),
      l.foldl
        (fun acc event =>
          let (project_name, trace) := resolveWithTrace env event.project
          (acc.1 ++ [activityLine event.branch project_name event.time],
           acc.2 ++ trace))
        acc =
      (acc.1 ++ l.map (fun e =>
         activityLine e.branch (resolve_project_name env e.project) e.time),
       acc.2 ++ l.map (fun e => e.project)) := by
    intro l
    induction l with
    | nil => intro acc; simp
    | cons e rest ih =>
        intro acc
        simp only [List.foldl_cons]
        rw [ih]
        simp [resolveWithTrace]
  simpa using aux events ([], [])

/-- The tab2 summary loop appends exactly one row per event, in event
order: it is a map over the filtered push events and performs no sort. -/
theorem activityData_eq_map (env : Env) (events : List PushEntry) :
    activityData env events =
      events.map (fun e =>
        { project := resolve_project_name env e.project
          branch := e.branch
          time := e.time }) := by
  have aux : ∀ (l : List PushEntry) (acc : List ActivityRow),
      l.foldl
        (fun acc event =>
          acc ++ [{ project := resolve_project_name env event.project
                    branch := event.branch
                    time := event.time }])
        acc =
      acc ++ l.map (fun e =>
        { project := resolve_project_name env e.project
          branch := e.branch
          time := e.time }) := by
    intro l
    induction l with
    | nil => intro acc; simp
    | cons e rest ih => intro acc; simp [ih]
  simpa using aux events []

/-- Batch processing distributes over list append: each user's row depends
only on that user. -/
theorem processBatch_append (env : Env) (today : Nat)
    (us vs : List String) (rows1 rows2 : List Row)
    (h1 : processBatch env today us = .ok rows1)
    (h2 : processBatch env today vs = .ok rows2) :
    processBatch env today (us ++ vs) = .ok (rows1 ++ rows2) := by
  induction us generalizing rows1 with
  | nil =>
      simp only [processBatch] at h1
      cases h1
      simpa using h2
  | cons u rest ih =>
      rw [List.cons_append]
      simp only [processBatch] at h1 ⊢
      cases hr : userRow env today u with
      | error err => rw [hr] at h1; exact Except.noConfusion h1
      | ok row =>
          rw [hr] at h1
          cases hrest : processBatch env today rest with
          | error err => rw [hrest] at h1; exact Except.noConfusion h1
          | ok rows0 =>
              rw [hrest] at h1
              cases h1
              simp only [hr, ih rows0 hrest]
              simp

/-- A username whose account lookup is not ok (or returns an empty body)
gets the zero-push sentinel row. -/
theorem userRow_of_lookup_failure (env : Env) (today : Nat) (u : String)
    (h : (env.usersResp u).ok = false ∨ (env.usersResp u).body = []) :
    userRow env today u =
      .ok { username := u, push_events := 0,
            activity := "No push events today." } := by
  have hfetch : fetch_user_events env today u = (.ok (none, []), []) := by
    rcases h with h | h
    · simp [fetch_user_events, h]
    · simp [fetch_user_events, h]
  simp [userRow, hfetch, buildActivityLog]

/-- The function `resolve_project_name` is the display string of the resolution
taxonomy. -/
theorem resolve_eq_label (env : Env) (p : Nat) :
    resolve_project_name env p = labelOf (classifyResolution env p) := by
  simp only [resolve_project_name, classifyResolution]
  by_cases hok : (env.projectResp p).ok = true
  · simp only [hok, if_true]
    cases (env.projectResp p).name <;> simp [labelOf]
  · simp only [Bool.not_eq_true] at hok
    simp only [hok, Bool.false_eq_true, if_false]
    by_cases h404 : ((env.projectResp p).status == 404) = true
    · simp [h404, labelOf]
    · simp only [Bool.not_eq_true] at h404
      simp only [h404, Bool.false_eq_true, if_false]
      by_cases h403 : ((env.projectResp p).status == 403) = true
      · simp [h403, labelOf]
      · simp only [Bool.not_eq_true] at h403
        simp [h403, labelOf]

/-- Any member of a list of naturals is bounded by its `foldr max 0`. -/
theorem le_foldr_max (l : List Nat) (a : Nat) (h : a ∈ l) :
    a ≤ l.foldr max 0 := by
  induction l with
  | nil => cases h
  | cons b t ih =>
      rcases List.mem_cons.mp h with h1 | h1
      · subst h1; exact le_max_left _ _
      · exact le_trans (ih h1) (le_max_right _ _)

/-- The `foldr max 0` of a list is one of its members, or zero. -/
theorem foldr_max_mem (l : List Nat) :
    l.foldr max 0 ∈ l ∨ l.foldr max 0 = 0 := by
  induction l with
  | nil => right; rfl
  | cons b t ih =>
      rw [List.foldr_cons]
      rcases le_total (t.foldr max 0) b with hle | hle
      · rw [max_eq_left hle]; exact Or.inl (List.mem_cons_self _ _)
      · rw [max_eq_right hle]
        rcases ih with h1 | h1
        · exact Or.inl (List.mem_cons_of_mem _ h1)
        · exact Or.inr h1

/-- No value occurs more often than `maxCount`. -/
theorem count_le_maxCount (xs : List String) (y : String) (hy : y ∈ xs) :
    xs.count y ≤ maxCount xs :=
  le_foldr_max _ _ (List.mem_map.mpr ⟨y, hy, rfl⟩)

/-- In a nonempty column some value attains `maxCount`. -/
theorem maxCount_attained (xs : List String) (h : xs ≠ []) :
    ∃ v ∈ xs, xs.count v = maxCount xs := by
  rcases foldr_max_mem (xs.map (fun v => xs.count v)) with h1 | h1
  · rcases List.mem_map.mp h1 with ⟨v, hv, hcv⟩
    exact ⟨v, hv, hcv⟩
  · cases xs with
    | nil => exact absurd rfl h
    | cons x t =>
        exfalso
        have h2 : (x :: t).count x ≤ maxCount (x :: t) :=
          count_le_maxCount _ _ (List.mem_cons_self _ _)
        have h3 : 0 < (x :: t).count x :=
          List.count_pos_iff.mpr (List.mem_cons_self _ _)
        have h4 : maxCount (x :: t) = 0 := h1
        omega

/-- Code-point comparison is reflexive. -/
theorem charsLe_refl (l : List Char) : charsLe l l = true := by
  induction l with
  | nil => rfl
  | cons a t ih => simp [charsLe, ih]

/-- Code-point comparison is total. -/
theorem charsLe_total (l1 l2 : List Char) :
    charsLe l1 l2 = true ∨ charsLe l2 l1 = true := by
  induction l1 generalizing l2 with
  | nil => left; rfl
  | cons a as ih =>
      cases l2 with
      | nil => right; rfl
      | cons b bs =>
          rcases Nat.lt_trichotomy a.toNat b.toNat with h | h | h
          · left; simp [charsLe, h]
          · rcases ih bs with h1 | h1
            · left; simp [charsLe, h, h1]
            · right; simp [charsLe, h, h1]
          · right; simp [charsLe, h]

/-- Code-point comparison is transitive. -/
theorem charsLe_trans (l1 l2 l3 : List Char)
    (h12 : charsLe l1 l2 = true) (h23 : charsLe l2 l3 = true) :
    charsLe l1 l3 = true := by
  induction l1 generalizing l2 l3 with
  | nil => rfl
  | cons a as ih =>
      cases l2 with
      | nil => simp [charsLe] at h12
      | cons b bs =>
          cases l3 with
          | nil => simp [charsLe] at h23
          | cons c cs =>
              simp only [charsLe] at h12 h23 ⊢
              by_cases hab : a.toNat < b.toNat
              · by_cases hbc : b.toNat < c.toNat
                · rw [if_pos (by omega : a.toNat < c.toNat)]
                · by_cases hcb : c.toNat < b.toNat
                  · rw [if_neg hbc, if_pos hcb] at h23
                    exact absurd h23 (by simp)
                  · rw [if_pos (by omega : a.toNat < c.toNat)]
              · by_cases hba : b.toNat < a.toNat
                · rw [if_neg hab, if_pos hba] at h12
                  exact absurd h12 (by simp)
                · rw [if_neg hab, if_neg hba] at h12
                  by_cases hbc : b.toNat < c.toNat
                  · rw [if_pos (by omega : a.toNat < c.toNat)]
                  · by_cases hcb : c.toNat < b.toNat
                    · rw [if_neg hbc, if_pos hcb] at h23
                      exact absurd h23 (by simp)
                    · rw [if_neg hbc, if_neg hcb] at h23
                      rw [if_neg (by omega : ¬ a.toNat < c.toNat),
                        if_neg (by omega : ¬ c.toNat < a.toNat)]
                      exact ih bs cs h12 h23

/-- String comparison is reflexive. -/
theorem strLe_refl (a : String) : strLe a a = true := charsLe_refl a.data

/-- String comparison is total. -/
theorem strLe_total (a b : String) : strLe a b = true ∨ strLe b a = true :=
  charsLe_total a.data b.data

/-- String comparison is transitive. -/
theorem strLe_trans (a b c : String)
    (h1 : strLe a b = true) (h2 : strLe b c = true) : strLe a c = true :=
  charsLe_trans a.data b.data c.data h1 h2

/-- Inserting into a list permutes the cons. -/
theorem insertSorted_perm (a : String) (l : List String) :
    List.Perm (insertSorted a l) (a :: l) := by
  induction l with
  | nil => exact List.Perm.refl _
  | cons b t ih =>
      simp only [insertSorted]
      by_cases h : strLe a b = true
      · rw [if_pos h]
      · rw [if_neg h]
        exact (ih.cons b).trans (List.Perm.swap a b t)

/-- Membership in an insertion. -/
theorem mem_insertSorted (x a : String) (l : List String) :
    x ∈ insertSorted a l ↔ x = a ∨ x ∈ l := by
  rw [(insertSorted_perm a l).mem_iff]
  simp

/-- The sort permutes its input. -/
theorem sortStrings_perm (l : List String) :
    List.Perm (sortStrings l) l := by
  induction l with
  | nil => exact List.Perm.refl _
  | cons a t ih =>
      simp only [sortStrings]
      exact (insertSorted_perm a (sortStrings t)).trans (ih.cons a)

/-- Insertion preserves sortedness. -/
theorem insertSorted_pairwise (a : String) (l : List String)
    (h : List.Pairwise (fun x y => strLe x y = true) l) :
    List.Pairwise (fun x y => strLe x y = true) (insertSorted a l) := by
  induction l with
  | nil => simp [insertSorted]
  | cons b t ih =>
      obtain ⟨hb, ht⟩ := List.pairwise_cons.mp h
      simp only [insertSorted]
      by_cases hab : strLe a b = true
      · rw [if_pos hab]
        refine List.pairwise_cons.mpr ⟨?_, h⟩
        intro x hx
        rcases List.mem_cons.mp hx with h1 | h1
        · subst h1; exact hab
        · exact strLe_trans a b x hab (hb x h1)
      · rw [if_neg hab]
        refine List.pairwise_cons.mpr ⟨?_, ih ht⟩
        intro x hx
        rcases (mem_insertSorted x a t).mp hx with h1 | h1
        · rw [h1]
          rcases strLe_total a b with h2 | h2
          · exact absurd h2 hab
          · exact h2
        · exact hb x h1

/-- The sort output is sorted. -/
theorem sortStrings_pairwise (l : List String) :
    List.Pairwise (fun x y => strLe x y = true) (sortStrings l) := by
  induction l with
  | nil => simp [sortStrings]
  | cons a t ih => exact insertSorted_pairwise a (sortStrings t) ih

/-- The selection `mode()[0]` picks a value of maximal frequency, and among the tied
maximal values the one least in code-point order. -/
theorem modeHead_spec (xs : List String) (h : xs ≠ []) :
    ∃ m, modeHead xs = some m ∧ m ∈ xs ∧ xs.count m = maxCount xs ∧
      (∀ y ∈ xs, xs.count y ≤ xs.count m) ∧
      (∀ y ∈ xs, xs.count y = xs.count m → strLe m y = true) := by
  obtain ⟨v, hv, hcv⟩ := maxCount_attained xs h
  have hvmem : v ∈ xs.dedup.filter (fun v => xs.count v == maxCount xs) :=
    List.mem_filter.mpr ⟨List.mem_dedup.mpr hv, by simp [hcv]⟩
  have hperm := sortStrings_perm
    (xs.dedup.filter (fun v => xs.count v == maxCount xs))
  have hsorted := sortStrings_pairwise
    (xs.dedup.filter (fun v => xs.count v == maxCount xs))
  cases hml : sortStrings
      (xs.dedup.filter (fun v => xs.count v == maxCount xs)) with
  | nil =>
      exfalso
      have hvnil : v ∈ ([] : List String) := by
        rw [← hml]; exact hperm.mem_iff.mpr hvmem
      cases hvnil
  | cons m rest =>
      have hmcands : m ∈ xs.dedup.filter (fun v => xs.count v == maxCount xs) := by
        have hmem : m ∈ sortStrings
            (xs.dedup.filter (fun v => xs.count v == maxCount xs)) := by
          rw [hml]; exact List.mem_cons_self _ _
        exact hperm.mem_iff.mp hmem
      obtain ⟨hmdedup, hmcnt⟩ := List.mem_filter.mp hmcands
      have hmxs : m ∈ xs := List.mem_dedup.mp hmdedup
      have hmmax : xs.count m = maxCount xs := by simpa using hmcnt
      refine ⟨m, ?_, hmxs, hmmax, ?_, ?_⟩
      · simp only [modeHead, modeList]
        rw [hml]
        rfl
      · intro y hy
        rw [hmmax]
        exact count_le_maxCount xs y hy
      · intro y hy hcy
        have hycands : y ∈ xs.dedup.filter (fun v => xs.count v == maxCount xs) :=
          List.mem_filter.mpr ⟨List.mem_dedup.mpr hy, by simp [hcy, hmmax]⟩
        have hysorted : y ∈ (m :: rest) := by
          rw [← hml]; exact hperm.mem_iff.mpr hycands
        rcases List.mem_cons.mp hysorted with h1 | h1
        · rw [h1]; exact strLe_refl m
        · rw [hml] at hsorted
          exact (List.pairwise_cons.mp hsorted).1 y h1

/-- Transport-aware batch processing distributes over list append. -/
theorem processBatch_t_append (env : TEnv) (today : Nat)
    (us vs : List String) (rows1 rows2 : List Row)
    (h1 : processBatch_t env today us = .ok rows1)
    (h2 : processBatch_t env today vs = .ok rows2) :
    processBatch_t env today (us ++ vs) = .ok (rows1 ++ rows2) := by
  induction us generalizing rows1 with
  | nil =>
      simp only [processBatch_t] at h1
      cases h1
      simpa using h2
  | cons u rest ih =>
      rw [List.cons_append]
      simp only [processBatch_t] at h1 ⊢
      cases hr : userRow_t env today u with
      | error err => rw [hr] at h1; exact Except.noConfusion h1
      | ok row =>
          rw [hr] at h1
          cases hrest : processBatch_t env today rest with
          | error err => rw [hrest] at h1; exact Except.noConfusion h1
          | ok rows0 =>
              rw [hrest] at h1
              cases h1
              simp only [hr, ih rows0 hrest]
              simp

/-! ## Claim theorems -/

/-- C1: on a normal return, the push-filtering step outputs exactly the
events whose action is `"pushed to"` and whose offset-converted timestamp
falls on the target date — each exactly once, mapped to its push entry, in
source order (the output IS the filtered input mapped, with no
re-sorting) — and the output is never longer than the input. -/
theorem filter_keeps_exactly_todays_pushes_in_order
    (events : List RawEvent) (todayLocal offsetMin : Nat)
    (out : List PushEntry)
    (h : filterPushes events todayLocal offsetMin = .ok out) :
    out = (events.filter (qualifies todayLocal offsetMin)).map
            (pushEntryOf offsetMin)
      ∧ out.length ≤ events.length := by
  have h1 := filterPushes_eq_filter_map events todayLocal offsetMin out h
  refine ⟨h1, ?_⟩
  rw [h1, List.length_map]
  exact List.length_filter_le _ _

/-- Witness for C1 on a three-event stream: one qualifying push, one
comment, one push on the next day. -/
theorem filter_keeps_exactly_todays_pushes_in_order_witness :
    [peMain] = (([evPush, evComment, evNextDay].filter
        (qualifies 0 330)).map (pushEntryOf 330))
      ∧ [peMain].length ≤ [evPush, evComment, evNextDay].length :=
  filter_keeps_exactly_todays_pushes_in_order
    [evPush, evComment, evNextDay] 0 330 [peMain] rfl

/-- C6 counterexample: a qualifying push event whose event dict has no
`push_data` key makes the loop raise `KeyError` (it is not accepted with
an empty branch), and a qualifying push whose `push_data` lacks `ref` is
accepted with branch `None`, which is not the empty string. -/
theorem missing_push_payload_counterexample :
    filterPushes [evNoPayload] 0 330 = .error .keyError ∧
    filterPushes [evNoRef] 0 330 =
      .ok [{ project := 5, branch := none, time := "03:30 PM" }] ∧
    ({ project := 5, branch := none, time := "03:30 PM" } : PushEntry).branch
      ≠ some "" :=
  ⟨rfl, rfl, by decide⟩

/-- C6 amended: a qualifying push whose `push_data` has no `ref` key is
accepted with branch `None` (rendered as the string `"None"` in activity
lines), while a qualifying push with no `push_data` key at all raises
`KeyError`, aborting the fetch, rather than being accepted with an empty
branch. -/
theorem missing_ref_gives_none_branch (e : RawEvent) (t d : Nat)
    (h1 : e.action_name = "pushed to")
    (h2 : parseCreatedAt e.created_at = some t)
    (h3 : (t + 330) / 1440 = d) :
    (e.push_data = some { ref := none } →
      filterPushes [e] d 330 =
        .ok [{ project := e.project_id, branch := none,
               time := strftimeIMp (t + 330) }]) ∧
    (e.push_data = none → filterPushes [e] d 330 = .error .keyError) ∧
    (∀ p tm, activityLine none p tm =
      "Pushed to 'None' in '" ++ p ++ "' at " ++ tm) := by
  refine ⟨?_, ?_, ?_⟩
  · intro hpd
    simp [filterPushes, h1, h2, h3, hpd]
  · intro hpd
    simp [filterPushes, h1, h2, h3, hpd]
  · intro p tm
    rfl

/-- Witness for the amended C6 at concrete events. -/
theorem missing_ref_gives_none_branch_witness :
    filterPushes [evNoRef] 0 330 =
      .ok [{ project := evNoRef.project_id, branch := none,
             time := strftimeIMp (600 + 330) }] ∧
    filterPushes [evNoPayload] 0 330 = .error .keyError ∧
    activityLine none "Alpha" "03:30 PM" =
      "Pushed to 'None' in 'Alpha' at 03:30 PM" :=
  ⟨(missing_ref_gives_none_branch evNoRef 600 0 rfl rfl rfl).1 rfl,
   (missing_ref_gives_none_branch evNoPayload 600 0 rfl rfl rfl).2.1 rfl,
   (missing_ref_gives_none_branch evNoRef 600 0 rfl rfl rfl).2.2
     "Alpha" "03:30 PM"⟩

/-- C7 counterexample: a stream whose first pushed-to event has an
unparseable `created_at` makes the whole loop raise `ValueError`: the
well-formed push after it is NOT processed (alone, it would have been
kept), so the malformed event is fatal to the fetch, not skipped. -/
theorem malformed_timestamp_fatal_counterexample :
    filterPushes [evMalformed, evPush] 0 330 = .error .valueError ∧
    filterPushes [evPush] 0 330 = .ok [peMain] :=
  ⟨rfl, rfl⟩

/-- C7 amended: a pushed-to event with an unparseable timestamp raises
`ValueError`, aborting the entire event loop for that user; the exception
propagates out of `fetch_user_events`, and in the tab1 batch loop it
aborts the whole batch as well. -/
theorem malformed_timestamp_aborts_fetch (e : RawEvent)
    (rest : List RawEvent) (d off : Nat)
    (h1 : e.action_name = "pushed to")
    (h2 : parseCreatedAt e.created_at = none) :
    filterPushes (e :: rest) d off = .error .valueError ∧
    (∀ env today uname us,
      (fetch_user_events env today uname).1 = .error .valueError →
      processBatch env today (uname :: us) = .error .valueError) := by
  constructor
  · simp [filterPushes, h1, h2]
  · intro env today uname us hf
    simp [processBatch, userRow, hf]

/-- Witness for the amended C7: with a malformed first event the filter
errors, and a batch over an environment serving that stream aborts. -/
theorem malformed_timestamp_aborts_fetch_witness :
    filterPushes (evMalformed :: [evPush]) 0 330 = .error .valueError ∧
    processBatch envMalformed 0 ["alice"] = .error .valueError :=
  ⟨(malformed_timestamp_aborts_fetch evMalformed [evPush] 0 330 rfl rfl).1,
   (malformed_timestamp_aborts_fetch evMalformed [evPush] 0 330 rfl rfl).2
     envMalformed 0 "alice" [] rfl⟩

/-- C2 counterexample: two push events on the same project make the tab1
loop issue two remote project lookups — there is no per-run cache, so the
second call is not served from memory and "at most one remote lookup" is
false. -/
theorem resolver_repeats_remote_lookup_counterexample :
    (buildActivityLog envFix [peMain, peEarlier]).2 = [5, 5] ∧
    ¬ (((buildActivityLog envFix [peMain, peEarlier]).2).count 5 ≤ 1) :=
  ⟨rfl, by decide⟩

/-- C2 amended: every call of `resolve_project_name` performs exactly one
remote lookup; across the batch loop the lookup trace is one remote call
per event, in event order (n events on the same project mean n remote
lookups — no cache). -/
theorem resolver_one_remote_lookup_per_event
    (env : Env) (events : List PushEntry) :
    (buildActivityLog env events).2 = events.map (fun e => e.project) := by
  rw [buildActivityLog_eq]

/-- C3 counterexample: the API returns events newest-first, so the
filtered entries of a fetch come out in descending time order, and the
tab2 summary built from them is NOT sorted ascending by local time. -/
theorem summary_not_sorted_counterexample :
    (fetch_user_events envFix 0 "alice").1 = .ok (some 7, [peMain, peEarlier]) ∧
    sortedByLocalTime (activityData envFix [peMain, peEarlier]) = false :=
  ⟨rfl, rfl⟩

/-- C3 amended: the activity summary performs no sort at all — its rows
are exactly the filtered push events in source order (one row per event,
order preserved); only the separate timeline dataframe copy is sorted. -/
theorem summary_preserves_source_order (env : Env) (events : List PushEntry) :
    activityData env events =
      events.map (fun e =>
        { project := resolve_project_name env e.project
          branch := e.branch
          time := e.time }) :=
  activityData_eq_map env events

/-- C5 counterexample: with projects `"B"` then `"A"` each pushed once,
`mode()[0]` returns `"A"` (pandas sorts the tied modes), while the spec's
first-occurrence tie-break would return `"B"`. -/
theorem mode_tiebreak_lexicographic_counterexample :
    mostActiveProject (activityData envFix [⟨3, none, "a"⟩, ⟨1, none, "b"⟩])
      = some "A" ∧
    specMostActive ((activityData envFix [⟨3, none, "a"⟩, ⟨1, none, "b"⟩]).map
      (fun r => r.project)) = some "B" ∧
    (some "A" : Option String) ≠ some "B" :=
  ⟨rfl, rfl, by decide⟩

/-- C5 amended: the "most active project" is a value of maximal frequency,
and among tied maximal values the lexicographically least one is chosen
(`mode()` sorts the tied values); the selection is a pure function of the
entry sequence, hence deterministic across runs. -/
theorem mode_selects_lexicographic_least_of_max_count
    (rows : List ActivityRow) (h : rows ≠ []) :
    ∃ m, mostActiveProject rows = some m ∧
      m ∈ rows.map (fun r => r.project) ∧
      (∀ y ∈ rows.map (fun r => r.project),
        (rows.map (fun r => r.project)).count y ≤
          (rows.map (fun r => r.project)).count m) ∧
      (∀ y ∈ rows.map (fun r => r.project),
        (rows.map (fun r => r.project)).count y =
          (rows.map (fun r => r.project)).count m → strLe m y = true) := by
  have hne : rows.map (fun r => r.project) ≠ [] := by
    cases rows with
    | nil => exact absurd rfl h
    | cons r t => simp
  obtain ⟨m, h1, h2, _, h4, h5⟩ := modeHead_spec _ hne
  exact ⟨m, h1, h2, h4, h5⟩

/-- Witness for the amended C5 on the tie `["B", "A"]`. -/
theorem mode_selects_lexicographic_least_of_max_count_witness :
    ∃ m, mostActiveProject [⟨"B", none, "a"⟩, ⟨"A", none, "b"⟩] = some m ∧
      m ∈ ([⟨"B", none, "a"⟩, ⟨"A", none, "b"⟩] : List ActivityRow).map
        (fun r => r.project) ∧
      (∀ y ∈ ([⟨"B", none, "a"⟩, ⟨"A", none, "b"⟩] : List ActivityRow).map
          (fun r => r.project),
        (([⟨"B", none, "a"⟩, ⟨"A", none, "b"⟩] : List ActivityRow).map
          (fun r => r.project)).count y ≤
        (([⟨"B", none, "a"⟩, ⟨"A", none, "b"⟩] : List ActivityRow).map
          (fun r => r.project)).count m) ∧
      (∀ y ∈ ([⟨"B", none, "a"⟩, ⟨"A", none, "b"⟩] : List ActivityRow).map
          (fun r => r.project),
        (([⟨"B", none, "a"⟩, ⟨"A", none, "b"⟩] : List ActivityRow).map
          (fun r => r.project)).count y =
        (([⟨"B", none, "a"⟩, ⟨"A", none, "b"⟩] : List ActivityRow).map
          (fun r => r.project)).count m → strLe m y = true) :=
  mode_selects_lexicographic_least_of_max_count
    [⟨"B", none, "a"⟩, ⟨"A", none, "b"⟩] (by simp)

/-- C4 counterexample: on entries resolving to `Resolved "A"`,
`Resolved "A"`, `NotFound`, `Resolved "B"`, `nunique()` returns 3 — the
404 fallback string counts as its own distinct value — while the claim
demands 2 (distinct `Resolved` names only). -/
theorem nunique_counts_fallback_buckets_counterexample :
    nuniqueProjects (activityData envFix mixedEntries) = 3 ∧
    specUniqueResolvedCount envFix mixedEntries = 2 ∧
    (3 : Nat) ≠ 2 :=
  ⟨rfl, rfl, by decide⟩

/-- C4 amended: `unique_project_count` is the number of distinct
project-display strings, so entries with `NotFound`/`AccessDenied`/
`Unknown` resolutions DO contribute — provided no resolved name collides
with a fallback string, the count splits as (distinct `Resolved` names) +
(distinct fallback strings present). -/
theorem nunique_counts_distinct_display_strings
    (env : Env) (events : List PushEntry)
    (hdisj : (events.all (fun e =>
        match resolvedName (classifyResolution env e.project) with
        | some n => !(n == "Project not found or private" ||
                      n == "Access denied" || n == "Unknown")
        | none => true)) = true) :
    nuniqueProjects (activityData env events) =
      specUniqueResolvedCount env events +
      (((events.map (fun e => classifyResolution env e.project)).filterMap
          fallbackLabel).dedup).length := by
  have hnames : (activityData env events).map (fun r => r.project) =
      (events.map (fun e => classifyResolution env e.project)).map labelOf := by
    rw [activityData_eq_map, List.map_map, List.map_map]
    congr 1
    funext e
    exact resolve_eq_label env e.project
  have hset : ∀ (L : List ProjectName),
      (L.map labelOf).toFinset =
        (L.filterMap resolvedName).toFinset ∪
        (L.filterMap fallbackLabel).toFinset := by
    intro L
    ext t
    simp only [List.mem_toFinset, Finset.mem_union, List.mem_map,
      List.mem_filterMap]
    constructor
    · rintro ⟨c, hc, rfl⟩
      cases c with
      | Resolved n => exact Or.inl ⟨.Resolved n, hc, rfl⟩
      | NotFound => exact Or.inr ⟨.NotFound, hc, rfl⟩
      | AccessDenied => exact Or.inr ⟨.AccessDenied, hc, rfl⟩
      | Unknown => exact Or.inr ⟨.Unknown, hc, rfl⟩
    · rintro (⟨c, hc, hval⟩ | ⟨c, hc, hval⟩)
      · cases c with
        | Resolved n =>
            exact ⟨.Resolved n, hc, by simpa [resolvedName, labelOf] using hval⟩
        | NotFound => simp [resolvedName] at hval
        | AccessDenied => simp [resolvedName] at hval
        | Unknown => simp [resolvedName] at hval
      · cases c with
        | Resolved n => simp [fallbackLabel] at hval
        | NotFound =>
            exact ⟨.NotFound, hc, by simpa [fallbackLabel, labelOf] using hval⟩
        | AccessDenied =>
            exact ⟨.AccessDenied, hc, by simpa [fallbackLabel, labelOf] using hval⟩
        | Unknown =>
            exact ⟨.Unknown, hc, by simpa [fallbackLabel, labelOf] using hval⟩
  have hdis : Disjoint
      ((events.map (fun e => classifyResolution env e.project)).filterMap
        resolvedName).toFinset
      ((events.map (fun e => classifyResolution env e.project)).filterMap
        fallbackLabel).toFinset := by
    rw [Finset.disjoint_left]
    intro t htA htB
    simp only [List.mem_toFinset, List.mem_filterMap] at htA htB
    obtain ⟨c1, hc1, hv1⟩ := htA
    obtain ⟨c2, hc2, hv2⟩ := htB
    cases c1 with
    | NotFound => simp [resolvedName] at hv1
    | AccessDenied => simp [resolvedName] at hv1
    | Unknown => simp [resolvedName] at hv1
    | Resolved n =>
        simp only [resolvedName, Option.some.injEq] at hv1
        subst hv1
        obtain ⟨e, he, hce⟩ := List.mem_map.mp hc1
        have hall := List.all_eq_true.mp hdisj e he
        rw [hce] at hall
        simp only [resolvedName] at hall
        cases c2 with
        | Resolved m => simp [fallbackLabel] at hv2
        | NotFound =>
            simp only [fallbackLabel, Option.some.injEq] at hv2
            rw [← hv2] at hall
            simp at hall
        | AccessDenied =>
            simp only [fallbackLabel, Option.some.injEq] at hv2
            rw [← hv2] at hall
            simp at hall
        | Unknown =>
            simp only [fallbackLabel, Option.some.injEq] at hv2
            rw [← hv2] at hall
            simp at hall
  rw [nuniqueProjects, nunique, ← List.card_toFinset, hnames, hset,
    Finset.card_union_of_disjoint hdis, List.card_toFinset,
    List.card_toFinset]
  rfl

/-- Witness for the amended C4 on the mixed four-entry fixture:
3 distinct display strings = 2 resolved + 1 fallback. -/
theorem nunique_counts_distinct_display_strings_witness :
    (mixedEntries.all (fun e =>
        match resolvedName (classifyResolution envFix e.project) with
        | some n => !(n == "Project not found or private" ||
                      n == "Access denied" || n == "Unknown")
        | none => true)) = true ∧
    nuniqueProjects (activityData envFix mixedEntries) =
      specUniqueResolvedCount envFix mixedEntries +
      (((mixedEntries.map (fun e => classifyResolution envFix e.project)).filterMap
          fallbackLabel).dedup).length :=
  ⟨by decide,
   nunique_counts_distinct_display_strings envFix mixedEntries (by decide)⟩

/-- C10: a successful project lookup whose body has no `"name"` field
resolves to `"Unknown"`, exactly the string produced for an unclassified
failure (non-ok status other than 404/403) — the two cases are
indistinguishable — and every outcome resolves to some taxonomy display
string (a plain string; the function has no failure path). -/
theorem resolve_unknown_indistinguishable (env : Env) (p1 p2 : Nat)
    (h1 : (env.projectResp p1).ok = true)
    (h2 : (env.projectResp p1).name = none)
    (h3 : (env.projectResp p2).ok = false)
    (h4 : (env.projectResp p2).status ≠ 404)
    (h5 : (env.projectResp p2).status ≠ 403) :
    resolve_project_name env p1 = "Unknown" ∧
    resolve_project_name env p2 = "Unknown" ∧
    resolve_project_name env p1 = resolve_project_name env p2 ∧
    (∀ q, ∃ c : ProjectName, resolve_project_name env q = labelOf c) := by
  have ha : resolve_project_name env p1 = "Unknown" := by
    simp [resolve_project_name, h1, h2]
  have hb : resolve_project_name env p2 = "Unknown" := by
    simp [resolve_project_name, h3, h4, h5]
  exact ⟨ha, hb, ha.trans hb.symm,
    fun q => ⟨classifyResolution env q, resolve_eq_label env q⟩⟩

/-- Witness for C10: project 4 (ok, nameless body) and project 9 (500)
both display `"Unknown"`. -/
theorem resolve_unknown_indistinguishable_witness :
    resolve_project_name envNameless 4 = "Unknown" ∧
    resolve_project_name envNameless 9 = "Unknown" ∧
    resolve_project_name envNameless 4 = resolve_project_name envNameless 9 ∧
    (∀ q, ∃ c : ProjectName, resolve_project_name envNameless q = labelOf c) :=
  resolve_unknown_indistinguishable envNameless 4 9 rfl rfl rfl
    (by decide) (by decide)

/-- C8: a username whose account lookup is not ok (or matches no account)
yields `(None, [])` with no event-endpoint call at all; a resolved
identity whose event retrieval is not ok yields `(user_id, [])` instead of
propagating; and in either case the batch loop still produces the rows of
every other user unchanged, appending only the failed user's sentinel
row. -/
theorem lookup_or_fetch_failure_degrades_gracefully
    (env : Env) (today : Nat) (u1 u2 : String) (uid : Nat) (ids : List Nat)
    (h1 : (env.usersResp u1).ok = false ∨ (env.usersResp u1).body = [])
    (h2 : (env.usersResp u2).ok = true)
    (h3 : (env.usersResp u2).body = uid :: ids)
    (h4 : (env.eventsResp uid).ok = false) :
    fetch_user_events env today u1 = (.ok (none, []), []) ∧
    fetch_user_events env today u2 = (.ok (some uid, []), [uid]) ∧
    (∀ us rows, processBatch env today us = .ok rows →
      processBatch env today (us ++ [u1]) =
        .ok (rows ++ [{ username := u1, push_events := 0,
                        activity := "No push events today." }]) ∧
      processBatch env today (u2 :: us) =
        .ok ({ username := u2, push_events := 0,
               activity := "No push events today." } :: rows)) := by
  have hf1 : fetch_user_events env today u1 = (.ok (none, []), []) := by
    rcases h1 with h | h
    · simp [fetch_user_events, h]
    · simp [fetch_user_events, h]
  have hf2 : fetch_user_events env today u2 = (.ok (some uid, []), [uid]) := by
    simp [fetch_user_events, h2, h3, h4]
  refine ⟨hf1, hf2, ?_⟩
  intro us rows hus
  have hr1 : userRow env today u1 =
      .ok { username := u1, push_events := 0,
            activity := "No push events today." } :=
    userRow_of_lookup_failure env today u1 h1
  have hr2 : userRow env today u2 =
      .ok { username := u2, push_events := 0,
            activity := "No push events today." } := by
    simp [userRow, hf2, buildActivityLog]
  constructor
  · exact processBatch_append env today us [u1] rows _ hus
      (by simp [processBatch, hr1])
  · simp [processBatch, hr2, hus]

/-- Witness for C8: `"ghost"` fails the lookup, `"bob"` resolves to id 7
but the event retrieval is down. -/
theorem lookup_or_fetch_failure_degrades_gracefully_witness :
    fetch_user_events envOutage 0 "ghost" = (.ok (none, []), []) ∧
    fetch_user_events envOutage 0 "bob" = (.ok (some 7, []), [7]) ∧
    (∀ us rows, processBatch envOutage 0 us = .ok rows →
      processBatch envOutage 0 (us ++ ["ghost"]) =
        .ok (rows ++ [{ username := "ghost", push_events := 0,
                        activity := "No push events today." }]) ∧
      processBatch envOutage 0 ("bob" :: us) =
        .ok ({ username := "bob", push_events := 0,
               activity := "No push events today." } :: rows)) :=
  lookup_or_fetch_failure_degrades_gracefully envOutage 0 "ghost" "bob" 7 []
    (Or.inl rfl) rfl rfl rfl

/-- C9: when the tab1 batch returns normally it yields exactly one row per
input username, in order; row i carries username i, the length of that
user's filtered event list as its push count, and the newline-joined
`Pushed to ... in ... at ...` lines (or the sentinel when there are no
events) — each row a function of its own user's fetch alone, so a
non-resolving username gets its sentinel row without affecting the
others. -/
theorem batch_one_row_per_username (env : Env) (today : Nat)
    (usernames : List String) (rows : List Row)
    (h : processBatch env today usernames = .ok rows) :
    rows.length = usernames.length ∧
    ∀ i (hi : i < usernames.length) (hi2 : i < rows.length),
      ∃ uid events,
        (fetch_user_events env today (usernames.get ⟨i, hi⟩)).1 =
          .ok (uid, events) ∧
        rows.get ⟨i, hi2⟩ =
          { username := usernames.get ⟨i, hi⟩
            push_events := events.length
            activity :=
              if events.isEmpty then "No push events today."
              else String.intercalate "\n" (events.map (fun ev =>
                activityLine ev.branch (resolve_project_name env ev.project)
                  ev.time)) } := by
  induction usernames generalizing rows with
  | nil =>
      simp only [processBatch] at h
      cases h
      refine ⟨rfl, ?_⟩
      intro i hi hi2
      exact absurd hi (by simp)
  | cons u rest ih =>
      simp only [processBatch] at h
      cases hr : userRow env today u with
      | error err => rw [hr] at h; exact Except.noConfusion h
      | ok row =>
          rw [hr] at h
          cases hrest : processBatch env today rest with
          | error err => rw [hrest] at h; exact Except.noConfusion h
          | ok rows0 =>
              rw [hrest] at h
              cases h
              obtain ⟨hlen, hrows⟩ := ih rows0 hrest
              refine ⟨by simp [hlen], ?_⟩
              intro i hi hi2
              cases i with
              | zero =>
                  simp only [userRow] at hr
                  cases hfetch : (fetch_user_events env today u).1 with
                  | error err =>
                      rw [hfetch] at hr
                      exact Except.noConfusion hr
                  | ok pr =>
                      obtain ⟨uid, events⟩ := pr
                      simp only [hfetch, Except.ok.injEq] at hr
                      refine ⟨uid, events, hfetch, ?_⟩
                      show row = _
                      rw [← hr, buildActivityLog_eq]
                      cases events with
                      | nil => simp
                      | cons a t => simp
              | succ n =>
                  have hi3 : n < rest.length := by simpa using hi
                  have hi4 : n < rows0.length := by simpa using hi2
                  obtain ⟨uid, events, hf, hrow⟩ := hrows n hi3 hi4
                  refine ⟨uid, events, ?_, ?_⟩
                  · simpa using hf
                  · simpa using hrow

/-- Witness for C9 on the batch `["alice", "ghost"]` over `envFix`:
alice gets her two formatted push lines, ghost gets the sentinel row. -/
theorem batch_one_row_per_username_witness :
    ([rowAlice, rowGhost] : List Row).length =
      (["alice", "ghost"] : List String).length ∧
    ∀ i (hi : i < (["alice", "ghost"] : List String).length)
      (hi2 : i < ([rowAlice, rowGhost] : List Row).length),
      ∃ uid events,
        (fetch_user_events envFix 0
            ((["alice", "ghost"] : List String).get ⟨i, hi⟩)).1 =
          .ok (uid, events) ∧
        ([rowAlice, rowGhost] : List Row).get ⟨i, hi2⟩ =
          { username := (["alice", "ghost"] : List String).get ⟨i, hi⟩
            push_events := events.length
            activity :=
              if events.isEmpty then "No push events today."
              else String.intercalate "\n" (events.map (fun ev =>
                activityLine ev.branch (resolve_project_name envFix ev.project)
                  ev.time)) } :=
  batch_one_row_per_username envFix 0 ["alice", "ghost"]
    [rowAlice, rowGhost] rfl

/-- C8 counterexample: a transport-level error from `requests.get` is
uncaught.  The account lookup of `"down"` raises instead of marking the
identity absent with an empty event list; the event retrieval of
`"carol"` raises instead of yielding an empty sequence; and the exception
aborts the whole batch — `"alice"`, whose batch alone yields her row,
loses it when either failing user is in the batch. -/
theorem transport_error_aborts_batch_counterexample :
    fetch_user_events_t envMixedT 0 "down" = (.error .requestError, []) ∧
    fetch_user_events_t envMixedT 0 "carol" = (.error .requestError, [8]) ∧
    processBatch_t envMixedT 0 ["alice"] = .ok [rowAliceT] ∧
    processBatch_t envMixedT 0 ["down", "alice"] = .error .requestError ∧
    processBatch_t envMixedT 0 ["carol", "alice"] = .error .requestError :=
  ⟨rfl, rfl, rfl, rfl, rfl⟩

/-- C8 amended: lookups and event retrievals that return an unsuccessful
HTTP response degrade exactly as claimed — a not-ok (or matchless) lookup
yields an absent identity and an empty event list with no event-endpoint
call, a not-ok event retrieval yields an empty list for the resolved
identity, and in both cases the batch still produces every other user's
row unchanged plus the failed user's sentinel row — but a transport-level
error (a raised `ConnectionError`/`Timeout` from `requests.get`, which
the code never catches) aborts that user's fetch and the entire batch. -/
theorem http_failures_degrade_transport_errors_abort
    (env : TEnv) (today : Nat) (u1 u2 u3 u4 : String)
    (r1 r2 r4 : UsersResponse) (er2 : EventsResponse)
    (uid uid2 : Nat) (ids ids2 : List Nat)
    (h1 : env.usersResp u1 = .ok r1) (h2 : r1.ok = false ∨ r1.body = [])
    (h3 : env.usersResp u2 = .ok r2) (h4 : r2.ok = true)
    (h5 : r2.body = uid :: ids)
    (h6 : env.eventsResp uid = .ok er2) (h7 : er2.ok = false)
    (h8 : env.usersResp u3 = .error .requestError)
    (h9 : env.usersResp u4 = .ok r4) (h10 : r4.ok = true)
    (h11 : r4.body = uid2 :: ids2)
    (h12 : env.eventsResp uid2 = .error .requestError) :
    fetch_user_events_t env today u1 = (.ok (none, []), []) ∧
    fetch_user_events_t env today u2 = (.ok (some uid, []), [uid]) ∧
    (∀ us rows, processBatch_t env today us = .ok rows →
      processBatch_t env today (us ++ [u1]) =
        .ok (rows ++ [{ username := u1, push_events := 0,
                        activity := "No push events today." }]) ∧
      processBatch_t env today (u2 :: us) =
        .ok ({ username := u2, push_events := 0,
               activity := "No push events today." } :: rows)) ∧
    fetch_user_events_t env today u3 = (.error .requestError, []) ∧
    fetch_user_events_t env today u4 = (.error .requestError, [uid2]) ∧
    (∀ us, processBatch_t env today (u3 :: us) = .error .requestError) ∧
    (∀ us, processBatch_t env today (u4 :: us) = .error .requestError) := by
  have hf1 : fetch_user_events_t env today u1 = (.ok (none, []), []) := by
    rcases h2 with h | h
    · simp [fetch_user_events_t, h1, h]
    · simp [fetch_user_events_t, h1, h]
  have hf2 : fetch_user_events_t env today u2 =
      (.ok (some uid, []), [uid]) := by
    simp [fetch_user_events_t, h3, h4, h5, h6, h7]
  have hf3 : fetch_user_events_t env today u3 =
      (.error .requestError, []) := by
    simp [fetch_user_events_t, h8]
  have hf4 : fetch_user_events_t env today u4 =
      (.error .requestError, [uid2]) := by
    simp [fetch_user_events_t, h9, h10, h11, h12]
  refine ⟨hf1, hf2, ?_, hf3, hf4, ?_, ?_⟩
  · intro us rows hus
    have hr1 : userRow_t env today u1 =
        .ok { username := u1, push_events := 0,
              activity := "No push events today." } := by
      simp [userRow_t, hf1, buildActivityLog_t]
    have hr2 : userRow_t env today u2 =
        .ok { username := u2, push_events := 0,
              activity := "No push events today." } := by
      simp [userRow_t, hf2, buildActivityLog_t]
    constructor
    · exact processBatch_t_append env today us [u1] rows _ hus
        (by simp [processBatch_t, hr1])
    · simp [processBatch_t, hr2, hus]
  · intro us
    have hr3 : userRow_t env today u3 = .error .requestError := by
      simp [userRow_t, hf3]
    simp [processBatch_t, hr3]
  · intro us
    have hr4 : userRow_t env today u4 = .error .requestError := by
      simp [userRow_t, hf4]
    simp [processBatch_t, hr4]

/-- Witness for the amended C8 over `envMixedT`: `"ghost"` (not-ok
lookup), `"bob"` (not-ok event retrieval), `"down"` (lookup raises) and
`"carol"` (event retrieval raises). -/
theorem http_failures_degrade_transport_errors_abort_witness :
    fetch_user_events_t envMixedT 0 "ghost" = (.ok (none, []), []) ∧
    fetch_user_events_t envMixedT 0 "bob" = (.ok (some 9, []), [9]) ∧
    (∀ us rows, processBatch_t envMixedT 0 us = .ok rows →
      processBatch_t envMixedT 0 (us ++ ["ghost"]) =
        .ok (rows ++ [{ username := "ghost", push_events := 0,
                        activity := "No push events today." }]) ∧
      processBatch_t envMixedT 0 ("bob" :: us) =
        .ok ({ username := "bob", push_events := 0,
               activity := "No push events today." } :: rows)) ∧
    fetch_user_events_t envMixedT 0 "down" = (.error .requestError, []) ∧
    fetch_user_events_t envMixedT 0 "carol" = (.error .requestError, [8]) ∧
    (∀ us, processBatch_t envMixedT 0 ("down" :: us) = .error .requestError) ∧
    (∀ us, processBatch_t envMixedT 0 ("carol" :: us) = .error .requestError) :=
  http_failures_degrade_transport_errors_abort envMixedT 0
    "ghost" "bob" "down" "carol"
    ⟨false, []⟩ ⟨true, [9]⟩ ⟨true, [8]⟩ ⟨false, []⟩ 9 8 [] []
    rfl (Or.inl rfl) rfl rfl rfl rfl rfl rfl rfl rfl rfl rfl

end Dashboard
